import Mathlib

/-!
# Tic-tac-toe engine of `tic_tac_toe.c`

A shallow embedding of the game engine of `src/tic_tac_toe.c` (the board, the
win and draw tests, the heuristic opponent, the move function and the event
handler), followed by theorems about it.

Modelling conventions.

* `board[i][j]` with `i`, `j` inside the array is a total function
  `Fin 3 → Fin 3 → CellState`; an access with a C `int` index is converted by
  `board_index`, which yields `none` outside the 3x3 array. A function that
  performs such an access returns `none` (the C behaviour is undefined there).
* `rand()` is explicit state passing over `RandState`, the sequence of values
  that the coming calls return.
* A loop with an early `return` becomes a structural recursion over the list of
  cells it visits; the result carries the board the loop leaves behind and a
  flag telling whether the function returned from inside the loop.
* Rendering, the window and the timer are not part of the embedding.
-/

namespace TicTacToe

/-! ## Data model -/

/-- The enum `CellState` (lines 14-18). -/
inductive CellState where
  | CELL_EMPTY
  | CELL_PLAYER
  | CELL_MACHINE
  deriving DecidableEq

/-- The enum `GameState` (lines 20-25). -/
inductive GameState where
  | GAME_PLAYING
  | GAME_PLAYER_WIN
  | GAME_MACHINE_WIN
  | GAME_DRAW
  deriving DecidableEq

open CellState GameState

/-- The field `board[BOARD_SIZE][BOARD_SIZE]` with `BOARD_SIZE = 3`. -/
abbrev Board := Fin 3 → Fin 3 → CellState

/-- A cell address `(row, col)` inside the array. -/
abbrev Pos := Fin 3 × Fin 3

/-- The engine fields of the struct `AppState` (lines 27-35): the board, the
game state and the selection cursor. -/
structure AppState where
  board : Board
  game_state : GameState
  selected_row : Int
  selected_col : Int

/-- The assignment `app->board[i][j] = v`. -/
def board_set (b : Board) (i j : Fin 3) (v : CellState) : Board :=
  fun r c => if r = i ∧ c = j then v else b r c

/-- Conversion of a pair of C `int` indices to a cell of the array; `none` when
`board[row][col]` lies outside the 3x3 array. -/
def board_index (row col : Int) : Option Pos :=
  if h : 0 ≤ row ∧ row < 3 ∧ 0 ≤ col ∧ col < 3 then
    some (⟨row.toNat, by omega⟩, ⟨col.toNat, by omega⟩)
  else none

/-- The cells in the order of the nested loops
`for (i = 0; i < 3; i++) for (j = 0; j < 3; j++)`. -/
def scan : List Pos :=
  [(0, 0), (0, 1), (0, 2), (1, 0), (1, 1), (1, 2), (2, 0), (2, 1), (2, 2)]

/-- The board written by the initialisation loop and by the reset loops. -/
def empty_board : Board := fun _ _ => CELL_EMPTY

/-! ## Random source -/

/-- State of the C library generator: `draws n` is the value returned by the
`n`-th coming call of `rand()` (a non-negative `int`). -/
structure RandState where
  draws : Nat → Nat

/-- One call of `rand()`: the value returned and the state left behind. -/
def rand (s : RandState) : Nat × RandState :=
  (s.draws 0, ⟨fun n => s.draws (n + 1)⟩)

/-! ## Board tests -/

/-- The function `check_winner` (lines 37-51): the loop over `i` tests row `i`
and column `i`, then the two diagonals are tested. -/
def check_winner (b : Board) (player : CellState) : Bool :=
  if List.any [(0 : Fin 3), 1, 2] (fun i =>
      decide ((b i 0 = player ∧ b i 1 = player ∧ b i 2 = player) ∨
              (b 0 i = player ∧ b 1 i = player ∧ b 2 i = player))) then true
  else if (b 0 0 = player ∧ b 1 1 = player ∧ b 2 2 = player) ∨
          (b 0 2 = player ∧ b 1 1 = player ∧ b 2 0 = player) then true
  else false

/-- The function `is_board_full` (lines 53-62): `0` as soon as an empty cell is
met in the scan, `1` otherwise. -/
def is_board_full (b : Board) : Bool :=
  if List.any scan (fun p => decide (b p.1 p.2 = CELL_EMPTY)) then false else true

/-! ## The opponent -/

/-- The counting loop at the head of `machine_move` (lines 66-73). -/
def total_moves (b : Board) : Nat :=
  List.foldl (fun n p => if b p.1 p.2 ≠ CELL_EMPTY then n + 1 else n) 0 scan

/-- The array `good_positions` (line 84). -/
def good_positions : List Pos := [(1, 1), (0, 0), (0, 2), (2, 0), (2, 2)]

/-- The loop filling `available_positions` (lines 88-96): each empty good
position is appended to the ones collected so far. -/
def available_positions (b : Board) : List Pos → List Pos → List Pos
  | acc, [] => acc
  | acc, p :: rest =>
    if b p.1 p.2 = CELL_EMPTY then available_positions b (acc ++ [p]) rest
    else available_positions b acc rest

/-- The win loop (lines 113-123): each empty cell is tentatively given the
machine mark; the function returns when that wins, else the cell is emptied. -/
def win_loop (b : Board) : List Pos → Board × Bool
  | [] => (b, false)
  | p :: rest =>
    if b p.1 p.2 = CELL_EMPTY then
      let b1 := board_set b p.1 p.2 CELL_MACHINE
      if check_winner b1 CELL_MACHINE then (b1, true)
      else win_loop (board_set b1 p.1 p.2 CELL_EMPTY) rest
    else win_loop b rest

/-- The block loop (lines 126-137): each empty cell is tentatively given the
player mark; when that wins for the player the cell gets the machine mark and
the function returns, else the cell is emptied. -/
def block_loop (b : Board) : List Pos → Board × Bool
  | [] => (b, false)
  | p :: rest =>
    if b p.1 p.2 = CELL_EMPTY then
      let b1 := board_set b p.1 p.2 CELL_PLAYER
      if check_winner b1 CELL_PLAYER then (board_set b1 p.1 p.2 CELL_MACHINE, true)
      else block_loop (board_set b1 p.1 p.2 CELL_EMPTY) rest
    else block_loop b rest

/-- The array `corners` (line 146). -/
def corners : List Pos := [(0, 0), (0, 2), (2, 0), (2, 2)]

/-- The loops that take the first empty cell of a list of cells: the corner
loop (lines 147-154) and the last loop (lines 157-164). -/
def take_first_empty (b : Board) : List Pos → Board × Bool
  | [] => (b, false)
  | p :: rest =>
    if b p.1 p.2 = CELL_EMPTY then (board_set b p.1 p.2 CELL_MACHINE, true)
    else take_first_empty b rest

/-- The part of `machine_move` after the opening (lines 112-165): win, block,
center, corner, any remaining cell. -/
def machine_strategy (b : Board) : Board :=
  match win_loop b scan with
  | (b1, true) => b1
  | (b1, false) =>
    match block_loop b1 scan with
    | (b2, true) => b2
    | (b2, false) =>
      if b2 1 1 = CELL_EMPTY then board_set b2 1 1 CELL_MACHINE
      else
        match take_first_empty b2 corners with
        | (b3, true) => b3
        | (b3, false) => (take_first_empty b3 scan).1

/-- The function `machine_move` (lines 64-165). The first `rand()` is called
only when the center is empty (the `&&` is short-circuit), the second one only
when a good position is available. -/
def machine_move (b : Board) (rng : RandState) : Board × RandState :=
  if total_moves b = 1 then
    let centre : Bool × RandState :=
      if b 1 1 = CELL_EMPTY then
        let d := rand rng
        (decide (d.1 % 100 < 60), d.2)
      else (false, rng)
    if centre.1 then (board_set b 1 1 CELL_MACHINE, centre.2)
    else
      let available := available_positions b [] good_positions
      let available_count := available.length
      if h : available_count > 0 then
        let d := rand centre.2
        let random_choice := d.1 % available_count
        let p := available.get ⟨random_choice, Nat.mod_lt _ h⟩
        (board_set b p.1 p.2 CELL_MACHINE, d.2)
      else (machine_strategy b, centre.2)
  else (machine_strategy b, rng)

/-! ## The move function -/

/-- The function `make_move` (lines 167-197). The test
`game_state != GAME_PLAYING || board[row][col] != CELL_EMPTY` reads the board
only when the game is being played; that read fails outside the array. -/
def make_move (app : AppState) (row col : Int) (rng : RandState) :
    Option (AppState × RandState) :=
  if app.game_state ≠ GAME_PLAYING then some (app, rng)
  else
    match board_index row col with
    | none => none
    | some p =>
      if app.board p.1 p.2 ≠ CELL_EMPTY then some (app, rng)
      else
        let b1 := board_set app.board p.1 p.2 CELL_PLAYER
        if check_winner b1 CELL_PLAYER then
          some ({ app with board := b1, game_state := GAME_PLAYER_WIN }, rng)
        else if is_board_full b1 then
          some ({ app with board := b1, game_state := GAME_DRAW }, rng)
        else
          let m := machine_move b1 rng
          if check_winner m.1 CELL_MACHINE then
            some ({ app with board := m.1, game_state := GAME_MACHINE_WIN }, m.2)
          else if is_board_full m.1 then
            some ({ app with board := m.1, game_state := GAME_DRAW }, m.2)
          else some ({ app with board := m.1 }, m.2)

/-! ## Events -/

/-- The scancodes the key handler distinguishes. -/
inductive Scancode where
  | ESCAPE | UP | DOWN | LEFT | RIGHT | SPACE | RETURN | R | OTHER
  deriving DecidableEq

/-- The events the handler distinguishes. A mouse button event carries whether
the button is the left one and the two values `row = y / CELL_SIZE` and
`col = x / CELL_SIZE` as stored in the `int` variables of lines 505-506. -/
inductive Event where
  | QUIT
  | KEY_DOWN (scancode : Scancode)
  | MOUSE_BUTTON_DOWN (left : Bool) (row col : Int)
  | OTHER

/-- The values of `SDL_AppResult` the handler returns. -/
inductive AppResult where
  | SDL_APP_CONTINUE
  | SDL_APP_SUCCESS
  deriving DecidableEq

open Scancode Event AppResult

/-- A value of type `int`; `none` when the arithmetic result does not fit in 32
bits (signed overflow is undefined). -/
def int_result (n : Int) : Option Int :=
  if -2147483648 ≤ n ∧ n ≤ 2147483647 then some n else none

/-- The expression `(x - 1 + BOARD_SIZE) % BOARD_SIZE` on `int`. -/
def cursor_dec (x : Int) : Option Int :=
  (int_result (x - 1)).bind fun t => (int_result (t + 3)).map fun u => Int.tmod u 3

/-- The expression `(x + 1) % BOARD_SIZE` on `int`. -/
def cursor_inc (x : Int) : Option Int :=
  (int_result (x + 1)).map fun u => Int.tmod u 3

/-- The reset code, written twice in the handler (lines 482-487 and 493-498). -/
def reset_game (app : AppState) : AppState :=
  { app with board := empty_board, game_state := GAME_PLAYING }

/-- The state set up by `SDL_AppInit` (lines 435-443). -/
def initial_app : AppState :=
  { board := empty_board, game_state := GAME_PLAYING, selected_row := 1, selected_col := 1 }

/-- The function `SDL_AppEvent` (lines 449-515). -/
def SDL_AppEvent (app : AppState) (rng : RandState) :
    Event → Option (AppResult × AppState × RandState)
  | QUIT => some (SDL_APP_SUCCESS, app, rng)
  | KEY_DOWN sc =>
    if sc = ESCAPE then some (SDL_APP_SUCCESS, app, rng)
    else if app.game_state = GAME_PLAYING then
      match sc with
      | UP => (cursor_dec app.selected_row).map fun r =>
          (SDL_APP_CONTINUE, { app with selected_row := r }, rng)
      | DOWN => (cursor_inc app.selected_row).map fun r =>
          (SDL_APP_CONTINUE, { app with selected_row := r }, rng)
      | LEFT => (cursor_dec app.selected_col).map fun c =>
          (SDL_APP_CONTINUE, { app with selected_col := c }, rng)
      | RIGHT => (cursor_inc app.selected_col).map fun c =>
          (SDL_APP_CONTINUE, { app with selected_col := c }, rng)
      | SPACE | RETURN =>
        (make_move app app.selected_row app.selected_col rng).map fun r =>
          (SDL_APP_CONTINUE, r.1, r.2)
      | R => some (SDL_APP_CONTINUE, reset_game app, rng)
      | _ => some (SDL_APP_CONTINUE, app, rng)
    else
      if sc = R then some (SDL_APP_CONTINUE, reset_game app, rng)
      else some (SDL_APP_CONTINUE, app, rng)
  | MOUSE_BUTTON_DOWN left row col =>
    if left = true ∧ app.game_state = GAME_PLAYING then
      if row ≥ 0 ∧ row < 3 ∧ col ≥ 0 ∧ col < 3 then
        (make_move app row col rng).map fun r => (SDL_APP_CONTINUE, r.1, r.2)
      else some (SDL_APP_CONTINUE, app, rng)
    else some (SDL_APP_CONTINUE, app, rng)
  | Event.OTHER => some (SDL_APP_CONTINUE, app, rng)

/-! ## Reachable sessions -/

/-- Sessions reached from the initial one by moves with in-range coordinates and
by resets (the `R` key), whatever the random source holds at each call. -/
inductive Reachable : AppState → Prop where
  | init : Reachable initial_app
  | move {app app1 : AppState} {rng rng1 : RandState} (row col : Int) :
      Reachable app → 0 ≤ row → row < 3 → 0 ≤ col → col < 3 →
      make_move app row col rng = some (app1, rng1) → Reachable app1
  | reset {app app1 : AppState} {rng rng1 : RandState} {res : AppResult} :
      Reachable app → SDL_AppEvent app rng (KEY_DOWN R) = some (res, app1, rng1) →
      Reachable app1

/-! ## Reference notions taken from the specification -/

/-- The 8 lines of the specification: rows 0-2, columns 0-2, the main diagonal
and the anti-diagonal. -/
def lines : List (Pos × Pos × Pos) :=
  [((0, 0), (0, 1), (0, 2)), ((1, 0), (1, 1), (1, 2)), ((2, 0), (2, 1), (2, 2)),
   ((0, 0), (1, 0), (2, 0)), ((0, 1), (1, 1), (2, 1)), ((0, 2), (1, 2), (2, 2)),
   ((0, 0), (1, 1), (2, 2)), ((0, 2), (1, 1), (2, 0))]

/-- The three cells of a line all hold `mark`. -/
def line_full (b : Board) (mark : CellState) (l : Pos × Pos × Pos) : Prop :=
  b l.1.1 l.1.2 = mark ∧ b l.2.1.1 l.2.1.2 = mark ∧ b l.2.2.1 l.2.2.2 = mark

instance line_full_decidable (b : Board) (mark : CellState) (l : Pos × Pos × Pos) :
    Decidable (line_full b mark l) := by
  unfold line_full; infer_instance

/-- The specification of `has_line(mark)`: some line is entirely `mark`. -/
def has_line_spec (b : Board) (mark : CellState) : Prop :=
  ∃ l ∈ lines, line_full b mark l

/-- The test `board[i][j] == CELL_EMPTY` as a Boolean. -/
def is_empty_at (b : Board) (p : Pos) : Bool := decide (b p.1 p.2 = CELL_EMPTY)

/-- The cell is empty and writing `mark` on it makes `check_winner` true for `mark`. -/
def wins_at (b : Board) (mark : CellState) (p : Pos) : Bool :=
  is_empty_at b p && check_winner (board_set b p.1 p.2 mark) mark

/-- The fixed-priority choice of the specification: the first cell in row-major
order that wins for the machine, else the first one that would win for the
player, else the center, else the first empty corner, else the first empty
cell. -/
def reference_cell (b : Board) : Option Pos :=
  (scan.find? (wins_at b CELL_MACHINE)).orElse fun _ =>
  (scan.find? (wins_at b CELL_PLAYER)).orElse fun _ =>
  (if b 1 1 = CELL_EMPTY then some (1, 1) else none).orElse fun _ =>
  (corners.find? (is_empty_at b)).orElse fun _ =>
  scan.find? (is_empty_at b)

/-- Row-major rank of a cell: `3 * row + col`. -/
def rank (p : Pos) : Nat := 3 * p.1.val + p.2.val

/-- The game state agrees with the board: no line and a free cell while playing,
a line of the winner only after a win, a full board without a line after a draw. -/
def status_consistent (app : AppState) : Prop :=
  match app.game_state with
  | GAME_PLAYING =>
    check_winner app.board CELL_PLAYER = false ∧ check_winner app.board CELL_MACHINE = false ∧
      is_board_full app.board = false
  | GAME_PLAYER_WIN =>
    check_winner app.board CELL_PLAYER = true ∧ check_winner app.board CELL_MACHINE = false
  | GAME_MACHINE_WIN =>
    check_winner app.board CELL_PLAYER = false ∧ check_winner app.board CELL_MACHINE = true
  | GAME_DRAW =>
    check_winner app.board CELL_PLAYER = false ∧ check_winner app.board CELL_MACHINE = false ∧
      is_board_full app.board = true

/-- A random source whose draws are all `0`, for concrete evaluations. -/
def zero_rand : RandState := ⟨fun _ => 0⟩

/-- The cell `p` is one of the three cells of the line `l`. -/
def on_line (p : Pos) (l : Pos × Pos × Pos) : Prop :=
  p = l.1 ∨ p = l.2.1 ∨ p = l.2.2

/-- The cell `p` is empty and lies on a line whose three cells all hold `mark` once
`p` is given `mark`: filling `p` completes a line for `mark`. -/
def completes_line (b : Board) (mark : CellState) (p : Pos) : Prop :=
  b p.1 p.2 = CELL_EMPTY ∧
    ∃ l ∈ lines, on_line p l ∧ line_full (board_set b p.1 p.2 mark) mark l

/-- Two cells of the line `l` hold `mark` and the third one is empty. -/
def two_and_open (b : Board) (mark : CellState) (l : Pos × Pos × Pos) : Prop :=
  (b l.1.1 l.1.2 = CELL_EMPTY ∧ b l.2.1.1 l.2.1.2 = mark ∧ b l.2.2.1 l.2.2.2 = mark) ∨
  (b l.1.1 l.1.2 = mark ∧ b l.2.1.1 l.2.1.2 = CELL_EMPTY ∧ b l.2.2.1 l.2.2.2 = mark) ∨
  (b l.1.1 l.1.2 = mark ∧ b l.2.1.1 l.2.1.2 = mark ∧ b l.2.2.1 l.2.2.2 = CELL_EMPTY)

/-! ## Concrete boards and sessions used in evaluations -/

/-- The board whose cells, in row-major order, are the elements of `l`. -/
def board_of (l : List CellState) : Board :=
  fun i j => l.getD (3 * i.val + j.val) CELL_EMPTY

/-- A game being played: player marks at (0,0) and (0,1), machine mark at (1,1). -/
def two_in_row_app : AppState :=
  { board := board_of [CELL_PLAYER, CELL_PLAYER, CELL_EMPTY,
                       CELL_EMPTY, CELL_MACHINE, CELL_EMPTY,
                       CELL_EMPTY, CELL_EMPTY, CELL_EMPTY],
    game_state := GAME_PLAYING, selected_row := 1, selected_col := 1 }

/-- A game the player has won with the top row; the cell (2,2) is still empty. -/
def player_won_app : AppState :=
  { board := board_of [CELL_PLAYER, CELL_PLAYER, CELL_PLAYER,
                       CELL_EMPTY, CELL_MACHINE, CELL_EMPTY,
                       CELL_MACHINE, CELL_EMPTY, CELL_EMPTY],
    game_state := GAME_PLAYER_WIN, selected_row := 0, selected_col := 2 }

/-- A game being played with a single empty cell, (2,2), which completes the main
diagonal for the player. -/
def last_cell_app : AppState :=
  { board := board_of [CELL_PLAYER, CELL_MACHINE, CELL_PLAYER,
                       CELL_MACHINE, CELL_PLAYER, CELL_MACHINE,
                       CELL_MACHINE, CELL_PLAYER, CELL_EMPTY],
    game_state := GAME_PLAYING, selected_row := 2, selected_col := 2 }

/-- The session after the player opened at (0,0) and the machine took the center. -/
def after_first_move : AppState :=
  { initial_app with
    board := board_set (board_set empty_board 0 0 CELL_PLAYER) 1 1 CELL_MACHINE }

/-- A random source whose draws are all `61`, for concrete evaluations. -/
def sixty_one_rand : RandState := ⟨fun _ => 61⟩

/-- The board after the player opened at (0,0). -/
def corner_opening_board : Board :=
  board_of [CELL_PLAYER, CELL_EMPTY, CELL_EMPTY,
            CELL_EMPTY, CELL_EMPTY, CELL_EMPTY,
            CELL_EMPTY, CELL_EMPTY, CELL_EMPTY]

/-- A board with three marks on which no win, no block and no center move exists:
machine mark at (0,0), player marks at (1,1) and (2,2). -/
def corner_rule_board : Board :=
  board_of [CELL_MACHINE, CELL_EMPTY, CELL_EMPTY,
            CELL_EMPTY, CELL_PLAYER, CELL_EMPTY,
            CELL_EMPTY, CELL_EMPTY, CELL_PLAYER]

/-- The 9 cells in the row-major order of the specification: rows 0 to 2 and, within
a row, columns 0 to 2. -/
def row_major_cells : List Pos :=
  [(0, 0), (0, 1), (0, 2), (1, 0), (1, 1), (1, 2), (2, 0), (2, 1), (2, 2)]

/-- The corner order of the specification: (0,0), (0,2), (2,0), (2,2). -/
def corner_order : List Pos := [(0, 0), (0, 2), (2, 0), (2, 2)]

/-- The cell `p` is empty and writing `mark` on it makes the `has_line(mark)` of the
specification true on the board, through `p` or not. -/
def fills_line (b : Board) (mark : CellState) (p : Pos) : Prop :=
  b p.1 p.2 = CELL_EMPTY ∧ has_line_spec (board_set b p.1 p.2 mark) mark

instance has_line_spec_decidable (b : Board) (mark : CellState) :
    Decidable (has_line_spec b mark) :=
  inferInstanceAs (Decidable (∃ l ∈ lines, line_full b mark l))

instance on_line_decidable (p : Pos) (l : Pos × Pos × Pos) : Decidable (on_line p l) :=
  inferInstanceAs (Decidable (p = l.1 ∨ p = l.2.1 ∨ p = l.2.2))

instance completes_line_decidable (b : Board) (mark : CellState) (p : Pos) :
    Decidable (completes_line b mark p) :=
  inferInstanceAs (Decidable (b p.1 p.2 = CELL_EMPTY ∧
    ∃ l ∈ lines, on_line p l ∧ line_full (board_set b p.1 p.2 mark) mark l))

instance fills_line_decidable (b : Board) (mark : CellState) (p : Pos) :
    Decidable (fills_line b mark p) :=
  inferInstanceAs (Decidable (b p.1 p.2 = CELL_EMPTY ∧
    has_line_spec (board_set b p.1 p.2 mark) mark))

/-- The fixed-priority choice of the specification for given win and block tests:
the first cell in row-major order passing the win test, else the first one
passing the block test, else the center if empty, else the first empty corner
in the corner order, else the first empty cell in row-major order. -/
def priority_cell (b : Board) (win block : Pos → Bool) : Option Pos :=
  (row_major_cells.find? win).orElse fun _ =>
  (row_major_cells.find? block).orElse fun _ =>
  (if b 1 1 = CELL_EMPTY then some (1, 1) else none).orElse fun _ =>
  (corner_order.find? fun p => decide (b p.1 p.2 = CELL_EMPTY)).orElse fun _ =>
  row_major_cells.find? fun p => decide (b p.1 p.2 = CELL_EMPTY)

/-- The reference with the tests "the cell completes a machine line" and "the cell
would complete a player line", a line through the cell being meant. -/
def line_reference_cell (b : Board) : Option Pos :=
  priority_cell b (fun p => decide (completes_line b CELL_MACHINE p))
    (fun p => decide (completes_line b CELL_PLAYER p))

/-- The reference with the tests "writing the machine mark on the empty cell makes
`has_line` true for the machine" and the same for the player mark and the
player. -/
def fill_reference_cell (b : Board) : Option Pos :=
  priority_cell b (fun p => decide (fills_line b CELL_MACHINE p))
    (fun p => decide (fills_line b CELL_PLAYER p))

/-- A board on which the machine already holds the top row, all other cells being
empty. -/
def machine_line_board : Board :=
  board_of [CELL_MACHINE, CELL_MACHINE, CELL_MACHINE,
            CELL_EMPTY, CELL_EMPTY, CELL_EMPTY,
            CELL_EMPTY, CELL_EMPTY, CELL_EMPTY]

/-! ## Auxiliary lemmas: the board and the loops -/

theorem board_set_same (b : Board) (i j : Fin 3) (v : CellState) :
    board_set b i j v i j = v := by simp [board_set]

theorem board_set_other (b : Board) (i j r c : Fin 3) (v : CellState) (h : ¬ (r = i ∧ c = j)) :
    board_set b i j v r c = b r c := by simp [board_set, h]

theorem board_set_overwrite (b : Board) (i j : Fin 3) (v w : CellState) :
    board_set (board_set b i j v) i j w = board_set b i j w := by
  funext r c
  by_cases h : r = i ∧ c = j <;> simp [board_set, h]

theorem board_set_undo (b : Board) (i j : Fin 3) (v : CellState) (h : b i j = CELL_EMPTY) :
    board_set (board_set b i j v) i j CELL_EMPTY = b := by
  funext r c
  by_cases hrc : r = i ∧ c = j
  · obtain ⟨rfl, rfl⟩ := hrc
    simp [board_set, h]
  · simp [board_set, hrc]

theorem check_winner_iff_line (b : Board) (mark : CellState) :
    check_winner b mark = true ↔ has_line_spec b mark := by
  simp only [check_winner, has_line_spec, lines, line_full]
  simp
  generalize (b 0 0 = mark ∧ b 0 1 = mark ∧ b 0 2 = mark) = r0
  generalize (b 1 0 = mark ∧ b 1 1 = mark ∧ b 1 2 = mark) = r1
  generalize (b 2 0 = mark ∧ b 2 1 = mark ∧ b 2 2 = mark) = r2
  generalize (b 0 0 = mark ∧ b 1 0 = mark ∧ b 2 0 = mark) = c0
  generalize (b 0 1 = mark ∧ b 1 1 = mark ∧ b 2 1 = mark) = c1
  generalize (b 0 2 = mark ∧ b 1 2 = mark ∧ b 2 2 = mark) = c2
  generalize (b 0 0 = mark ∧ b 1 1 = mark ∧ b 2 2 = mark) = d0
  generalize (b 0 2 = mark ∧ b 1 1 = mark ∧ b 2 0 = mark) = d1
  tauto

theorem win_loop_eq (b : Board) (ps : List Pos) :
    win_loop b ps = match ps.find? (wins_at b CELL_MACHINE) with
      | some p => (board_set b p.1 p.2 CELL_MACHINE, true)
      | none => (b, false) := by
  induction ps with
  | nil => rfl
  | cons p rest ih =>
    by_cases he : b p.1 p.2 = CELL_EMPTY
    · by_cases hw : check_winner (board_set b p.1 p.2 CELL_MACHINE) CELL_MACHINE = true
      · simp [win_loop, he, hw, wins_at, is_empty_at]
      · simp [win_loop, he, hw, wins_at, is_empty_at, board_set_undo, ih]
    · simp [win_loop, he, wins_at, is_empty_at, ih]

theorem block_loop_eq (b : Board) (ps : List Pos) :
    block_loop b ps = match ps.find? (wins_at b CELL_PLAYER) with
      | some p => (board_set b p.1 p.2 CELL_MACHINE, true)
      | none => (b, false) := by
  induction ps with
  | nil => rfl
  | cons p rest ih =>
    by_cases he : b p.1 p.2 = CELL_EMPTY
    · by_cases hw : check_winner (board_set b p.1 p.2 CELL_PLAYER) CELL_PLAYER = true
      · simp [block_loop, he, hw, wins_at, is_empty_at, board_set_overwrite]
      · simp [block_loop, he, hw, wins_at, is_empty_at, board_set_undo, ih]
    · simp [block_loop, he, wins_at, is_empty_at, ih]

theorem take_first_empty_eq (b : Board) (ps : List Pos) :
    take_first_empty b ps = match ps.find? (is_empty_at b) with
      | some p => (board_set b p.1 p.2 CELL_MACHINE, true)
      | none => (b, false) := by
  induction ps with
  | nil => rfl
  | cons p rest ih =>
    by_cases he : b p.1 p.2 = CELL_EMPTY
    · simp [take_first_empty, he, is_empty_at]
    · simp [take_first_empty, he, is_empty_at, ih]

theorem machine_strategy_eq (b : Board) :
    machine_strategy b = match reference_cell b with
      | some p => board_set b p.1 p.2 CELL_MACHINE
      | none => b := by
  unfold machine_strategy reference_cell
  rw [win_loop_eq]
  cases h1 : scan.find? (wins_at b CELL_MACHINE) with
  | some p => simp
  | none =>
    simp only [Option.orElse]
    rw [block_loop_eq]
    cases h2 : scan.find? (wins_at b CELL_PLAYER) with
    | some p => simp
    | none =>
      simp only []
      by_cases hc : b 1 1 = CELL_EMPTY
      · simp [hc]
      · simp only [hc, if_false]
        rw [take_first_empty_eq]
        cases h3 : corners.find? (is_empty_at b) with
        | some p => simp
        | none =>
          simp only []
          rw [take_first_empty_eq]
          cases h4 : scan.find? (is_empty_at b) with
          | some p => simp
          | none => simp

/-! ## Auxiliary lemmas: counting, the opening and the placement of the machine mark -/

theorem mem_scan (p : Pos) : p ∈ scan := by
  revert p; decide

theorem board_set_eq_mark (b : Board) (i j r c : Fin 3) (v mark : CellState)
    (hv : v ≠ mark) (h : board_set b i j v r c = mark) : b r c = mark := by
  unfold board_set at h
  split_ifs at h
  · exact absurd h hv
  · exact h

theorem check_winner_board_set_mono (b : Board) (i j : Fin 3) (v mark : CellState)
    (hv : v ≠ mark) (h : check_winner (board_set b i j v) mark = true) :
    check_winner b mark = true := by
  rw [check_winner_iff_line] at h ⊢
  obtain ⟨l, hl, h1, h2, h3⟩ := h
  exact ⟨l, hl, board_set_eq_mark b i j _ _ v mark hv h1,
    board_set_eq_mark b i j _ _ v mark hv h2, board_set_eq_mark b i j _ _ v mark hv h3⟩

theorem is_board_full_eq_false (b : Board) :
    is_board_full b = false ↔ ∃ p : Pos, b p.1 p.2 = CELL_EMPTY := by
  unfold is_board_full
  constructor
  · intro h
    by_cases ha : List.any scan (fun p => decide (b p.1 p.2 = CELL_EMPTY)) = true
    · obtain ⟨p, _, hp⟩ := List.any_eq_true.1 ha
      exact ⟨p, of_decide_eq_true hp⟩
    · simp [ha] at h
  · rintro ⟨p, hp⟩
    have ha : List.any scan (fun p => decide (b p.1 p.2 = CELL_EMPTY)) = true :=
      List.any_eq_true.2 ⟨p, mem_scan p, decide_eq_true hp⟩
    simp [ha]

theorem is_board_full_eq_true (b : Board) :
    is_board_full b = true ↔ ∀ p : Pos, b p.1 p.2 ≠ CELL_EMPTY := by
  constructor
  · intro h p hp
    have := (is_board_full_eq_false b).2 ⟨p, hp⟩
    rw [h] at this
    exact Bool.noConfusion this
  · intro h
    cases hf : is_board_full b with
    | true => rfl
    | false =>
      obtain ⟨p, hp⟩ := (is_board_full_eq_false b).1 hf
      exact absurd hp (h p)

theorem foldl_count (P : Pos → Prop) [DecidablePred P] (ps : List Pos) (k : Nat) :
    List.foldl (fun n p => if P p then n + 1 else n) k ps = k + ps.countP (fun p => decide (P p)) := by
  induction ps generalizing k with
  | nil => simp
  | cons p rest ih =>
    by_cases hp : P p
    · simp [List.foldl, hp, ih, List.countP_cons]; omega
    · simp [List.foldl, hp, ih, List.countP_cons]

theorem total_moves_eq_countP (b : Board) :
    total_moves b = scan.countP (fun p => decide (b p.1 p.2 ≠ CELL_EMPTY)) := by
  unfold total_moves
  rw [foldl_count (fun p => b p.1 p.2 ≠ CELL_EMPTY)]
  simp

theorem two_le_total_moves (b : Board) (p q : Pos) (hpq : p ≠ q)
    (hp : b p.1 p.2 ≠ CELL_EMPTY) (hq : b q.1 q.2 ≠ CELL_EMPTY) : 2 ≤ total_moves b := by
  rw [total_moves_eq_countP, List.countP_eq_length_filter]
  have hsub : [p, q] ⊆ scan.filter (fun p => decide (b p.1 p.2 ≠ CELL_EMPTY)) := by
    intro x hx
    simp only [List.mem_cons, List.mem_singleton, List.not_mem_nil, or_false] at hx
    rcases hx with rfl | rfl
    · exact List.mem_filter.2 ⟨mem_scan _, decide_eq_true hp⟩
    · exact List.mem_filter.2 ⟨mem_scan _, decide_eq_true hq⟩
  have hnd : [p, q].Nodup := by simp [hpq]
  exact (List.subperm_of_subset hnd hsub).length_le

theorem available_positions_eq (b : Board) (acc ps : List Pos) :
    available_positions b acc ps = acc ++ ps.filter (is_empty_at b) := by
  induction ps generalizing acc with
  | nil => simp [available_positions]
  | cons p rest ih =>
    by_cases he : b p.1 p.2 = CELL_EMPTY
    · simp [available_positions, he, ih, is_empty_at]
    · simp [available_positions, he, ih, is_empty_at]

theorem available_pos_of_one (b : Board) (h : total_moves b = 1) :
    0 < (available_positions b [] good_positions).length := by
  rw [available_positions_eq]
  by_cases h1 : b 1 1 = CELL_EMPTY
  · simp [good_positions, List.filter, is_empty_at, h1]
  · by_cases h0 : b 0 0 = CELL_EMPTY
    · simp [good_positions, List.filter, is_empty_at, h1, h0]
    · have := two_le_total_moves b (1, 1) (0, 0) (by decide) h1 h0
      omega

theorem reference_cell_empty (b : Board) (p : Pos) (h : reference_cell b = some p) :
    b p.1 p.2 = CELL_EMPTY := by
  unfold reference_cell at h
  have hw : ∀ mark q, scan.find? (wins_at b mark) = some q → b q.1 q.2 = CELL_EMPTY := by
    intro mark q hq
    have := List.find?_some hq
    simp only [wins_at, is_empty_at, Bool.and_eq_true, decide_eq_true_eq] at this
    exact this.1
  have he : ∀ (ps : List Pos) q, ps.find? (is_empty_at b) = some q → b q.1 q.2 = CELL_EMPTY := by
    intro ps q hq
    have := List.find?_some hq
    simpa [is_empty_at] using this
  cases h1 : scan.find? (wins_at b CELL_MACHINE) with
  | some q => rw [h1] at h; simp at h; subst h; exact hw _ _ h1
  | none =>
    rw [h1] at h
    cases h2 : scan.find? (wins_at b CELL_PLAYER) with
    | some q => rw [h2] at h; simp at h; subst h; exact hw _ _ h2
    | none =>
      rw [h2] at h
      by_cases hc : b 1 1 = CELL_EMPTY
      · simp [hc] at h; subst h; exact hc
      · cases h3 : corners.find? (is_empty_at b) with
        | some q => rw [h3] at h; simp [hc] at h; subst h; exact he _ _ h3
        | none =>
          rw [h3] at h
          simp [hc] at h
          exact he _ _ h

theorem reference_cell_isSome (b : Board) (h : is_board_full b = false) :
    ∃ p, reference_cell b = some p := by
  obtain ⟨q, hq⟩ := (is_board_full_eq_false b).1 h
  have hne : scan.find? (is_empty_at b) ≠ none := by
    intro hn
    rw [List.find?_eq_none] at hn
    exact hn q (mem_scan q) (by simp [is_empty_at, hq])
  obtain ⟨p, hp⟩ := Option.ne_none_iff_exists'.1 hne
  unfold reference_cell
  cases h1 : scan.find? (wins_at b CELL_MACHINE) with
  | some q => exact ⟨q, by simp⟩
  | none =>
    cases h2 : scan.find? (wins_at b CELL_PLAYER) with
    | some q => exact ⟨q, by simp⟩
    | none =>
      by_cases hc : b 1 1 = CELL_EMPTY
      · exact ⟨(1, 1), by simp [hc]⟩
      · cases h3 : corners.find? (is_empty_at b) with
        | some q => exact ⟨q, by simp [hc]⟩
        | none => exact ⟨p, by simp [hc, hp]⟩

theorem machine_strategy_places (b : Board) (h : is_board_full b = false) :
    ∃ p : Pos, b p.1 p.2 = CELL_EMPTY ∧ reference_cell b = some p ∧
      machine_strategy b = board_set b p.1 p.2 CELL_MACHINE := by
  obtain ⟨p, hp⟩ := reference_cell_isSome b h
  exact ⟨p, reference_cell_empty b p hp, hp, by rw [machine_strategy_eq, hp]⟩

theorem available_positions_mem (b : Board) (p : Pos)
    (h : p ∈ available_positions b [] good_positions) :
    p ∈ good_positions ∧ b p.1 p.2 = CELL_EMPTY := by
  rw [available_positions_eq] at h
  simpa [is_empty_at] using h

theorem machine_move_of_ne_one (b : Board) (rng : RandState) (h1 : total_moves b ≠ 1) :
    machine_move b rng = (machine_strategy b, rng) := by
  unfold machine_move
  rw [if_neg h1]

theorem machine_move_center (b : Board) (rng : RandState) (h1 : total_moves b = 1)
    (hc : b 1 1 = CELL_EMPTY) (hd : (rand rng).1 % 100 < 60) :
    machine_move b rng = (board_set b 1 1 CELL_MACHINE, (rand rng).2) := by
  unfold machine_move
  simp [h1, hc, hd]

theorem machine_move_random_after_draw (b : Board) (rng : RandState) (h1 : total_moves b = 1)
    (hc : b 1 1 = CELL_EMPTY) (hd : ¬ (rand rng).1 % 100 < 60)
    (hav : 0 < (available_positions b [] good_positions).length) :
    machine_move b rng =
      (board_set b
        ((available_positions b [] good_positions).get
          ⟨(rand (rand rng).2).1 % (available_positions b [] good_positions).length,
            Nat.mod_lt _ hav⟩).1
        ((available_positions b [] good_positions).get
          ⟨(rand (rand rng).2).1 % (available_positions b [] good_positions).length,
            Nat.mod_lt _ hav⟩).2 CELL_MACHINE, (rand (rand rng).2).2) := by
  unfold machine_move
  simp only [h1, hc, if_true, decide_eq_true_eq, hd, if_false]
  rw [dif_pos hav]

theorem machine_move_random_first_draw (b : Board) (rng : RandState) (h1 : total_moves b = 1)
    (hc : b 1 1 ≠ CELL_EMPTY)
    (hav : 0 < (available_positions b [] good_positions).length) :
    machine_move b rng =
      (board_set b
        ((available_positions b [] good_positions).get
          ⟨(rand rng).1 % (available_positions b [] good_positions).length,
            Nat.mod_lt _ hav⟩).1
        ((available_positions b [] good_positions).get
          ⟨(rand rng).1 % (available_positions b [] good_positions).length,
            Nat.mod_lt _ hav⟩).2 CELL_MACHINE, (rand rng).2) := by
  unfold machine_move
  simp only [h1, hc, if_true, if_false]
  rw [dif_pos hav]
  simp

theorem machine_move_places (b : Board) (rng : RandState) (h : is_board_full b = false) :
    ∃ p : Pos, b p.1 p.2 = CELL_EMPTY ∧
      (machine_move b rng).1 = board_set b p.1 p.2 CELL_MACHINE := by
  by_cases h1 : total_moves b = 1
  · have hav := available_pos_of_one b h1
    by_cases hc : b 1 1 = CELL_EMPTY
    · by_cases hd : (rand rng).1 % 100 < 60
      · exact ⟨(1, 1), hc, by rw [machine_move_center b rng h1 hc hd]⟩
      · exact ⟨_, (available_positions_mem b _ (List.get_mem _ _ _)).2,
          by rw [machine_move_random_after_draw b rng h1 hc hd hav]⟩
    · exact ⟨_, (available_positions_mem b _ (List.get_mem _ _ _)).2,
        by rw [machine_move_random_first_draw b rng h1 hc hav]⟩
  · obtain ⟨p, hp, _, he⟩ := machine_strategy_places b h
    exact ⟨p, hp, by rw [machine_move_of_ne_one b rng h1, he]⟩

/-! ## Auxiliary lemmas: the move function and reachable sessions -/

theorem board_index_coe (i j : Fin 3) : board_index (i.val : Int) (j.val : Int) = some (i, j) := by
  unfold board_index
  have h : 0 ≤ (i.val : Int) ∧ (i.val : Int) < 3 ∧ 0 ≤ (j.val : Int) ∧ (j.val : Int) < 3 := by
    omega
  rw [dif_pos h]
  simp

theorem board_index_in_range (row col : Int) (h0 : 0 ≤ row) (h1 : row < 3) (h2 : 0 ≤ col)
    (h3 : col < 3) : ∃ p, board_index row col = some p := by
  unfold board_index
  rw [dif_pos ⟨h0, h1, h2, h3⟩]
  exact ⟨_, rfl⟩

theorem board_index_out_of_range (row col : Int)
    (h : ¬ (0 ≤ row ∧ row < 3 ∧ 0 ≤ col ∧ col < 3)) : board_index row col = none := by
  unfold board_index
  rw [dif_neg h]

theorem check_winner_board_set_false (b : Board) (i j : Fin 3) (v mark : CellState)
    (hv : v ≠ mark) (h : check_winner b mark = false) :
    check_winner (board_set b i j v) mark = false := by
  cases h1 : check_winner (board_set b i j v) mark with
  | false => rfl
  | true =>
    rw [check_winner_board_set_mono b i j v mark hv h1] at h
    exact Bool.noConfusion h

theorem status_consistent_initial : status_consistent initial_app := by
  refine ⟨?_, ?_, ?_⟩ <;> decide

theorem status_consistent_reset (app : AppState) : status_consistent (reset_game app) := by
  have h1 : check_winner empty_board CELL_PLAYER = false := by decide
  have h2 : check_winner empty_board CELL_MACHINE = false := by decide
  have h3 : is_board_full empty_board = false := by decide
  exact ⟨h1, h2, h3⟩

theorem status_consistent_make_move (app app1 : AppState) (rng rng1 : RandState) (row col : Int)
    (hinv : status_consistent app) (hm : make_move app row col rng = some (app1, rng1)) :
    status_consistent app1 := by
  unfold make_move at hm
  by_cases hs : app.game_state = GAME_PLAYING
  · simp only [hs, ne_eq, not_true_eq_false, if_false] at hm
    unfold status_consistent at hinv
    rw [hs] at hinv
    obtain ⟨hp, hmach, _⟩ := hinv
    cases hidx : board_index row col with
    | none => rw [hidx] at hm; exact Option.noConfusion hm
    | some p =>
      rw [hidx] at hm
      simp only at hm
      by_cases he : app.board p.1 p.2 = CELL_EMPTY
      · simp only [he, ne_eq, not_true_eq_false, if_false] at hm
        have hm1 := check_winner_board_set_false app.board p.1 p.2 CELL_PLAYER CELL_MACHINE
          (by decide) hmach
        cases hw : check_winner (board_set app.board p.1 p.2 CELL_PLAYER) CELL_PLAYER with
        | true =>
          simp only [hw, if_true, Option.some.injEq, Prod.mk.injEq] at hm
          rw [← hm.1]
          exact ⟨hw, hm1⟩
        | false =>
          simp only [hw, Bool.false_eq_true, if_false] at hm
          cases hf : is_board_full (board_set app.board p.1 p.2 CELL_PLAYER) with
          | true =>
            simp only [hf, if_true, Option.some.injEq, Prod.mk.injEq] at hm
            rw [← hm.1]
            exact ⟨hw, hm1, hf⟩
          | false =>
            simp only [hf, Bool.false_eq_true, if_false] at hm
            obtain ⟨q, _, hq⟩ := machine_move_places
              (board_set app.board p.1 p.2 CELL_PLAYER) rng hf
            have hp2 : check_winner (machine_move (board_set app.board p.1 p.2 CELL_PLAYER) rng).1
                CELL_PLAYER = false := by
              rw [hq]
              exact check_winner_board_set_false _ q.1 q.2 CELL_MACHINE CELL_PLAYER (by decide) hw
            cases hw2 : check_winner
                (machine_move (board_set app.board p.1 p.2 CELL_PLAYER) rng).1 CELL_MACHINE with
            | true =>
              simp only [hw2, if_true, Option.some.injEq, Prod.mk.injEq] at hm
              rw [← hm.1]
              exact ⟨hp2, hw2⟩
            | false =>
              simp only [hw2, Bool.false_eq_true, if_false] at hm
              cases hf2 : is_board_full
                  (machine_move (board_set app.board p.1 p.2 CELL_PLAYER) rng).1 with
              | true =>
                simp only [hf2, if_true, Option.some.injEq, Prod.mk.injEq] at hm
                rw [← hm.1]
                exact ⟨hp2, hw2, hf2⟩
              | false =>
                simp only [hf2, Bool.false_eq_true, if_false, Option.some.injEq,
                  Prod.mk.injEq] at hm
                rw [← hm.1]
                unfold status_consistent
                simp only [hs]
                exact ⟨hp2, hw2, hf2⟩
      · simp only [he, ne_eq, not_false_eq_true, if_true, Option.some.injEq,
          Prod.mk.injEq] at hm
        rw [← hm.1]
        unfold status_consistent
        rw [hs]
        exact ⟨hp, hmach, by assumption⟩
  · simp only [ne_eq, hs, not_false_eq_true, if_true, Option.some.injEq, Prod.mk.injEq] at hm
    rw [← hm.1]
    exact hinv

theorem reset_key_eq (app : AppState) (rng : RandState) :
    SDL_AppEvent app rng (KEY_DOWN R) = some (SDL_APP_CONTINUE, reset_game app, rng) := by
  unfold SDL_AppEvent
  by_cases hs : app.game_state = GAME_PLAYING <;> simp [hs]

theorem status_consistent_of_reachable (app : AppState) (h : Reachable app) :
    status_consistent app := by
  induction h with
  | init => exact status_consistent_initial
  | move row col _ _ _ _ _ hm ih => exact status_consistent_make_move _ _ _ _ row col ih hm
  | reset _ hr ih =>
    rw [reset_key_eq] at hr
    simp only [Option.some.injEq, Prod.mk.injEq] at hr
    rw [← hr.2.1]
    exact status_consistent_reset _

theorem make_move_total_in_range (app : AppState) (rng : RandState) (row col : Int)
    (h0 : 0 ≤ row) (h1 : row < 3) (h2 : 0 ≤ col) (h3 : col < 3) :
    ∃ r, make_move app row col rng = some r := by
  obtain ⟨p, hp⟩ := board_index_in_range row col h0 h1 h2 h3
  unfold make_move
  rw [hp]
  simp only
  split_ifs <;> exact ⟨_, rfl⟩

/-! ## Auxiliary lemmas: lines and the row-major order -/

theorem scan_sorted : scan.Pairwise (fun p q => rank p < rank q) := by
  decide

theorem find_scan_least (P : Pos → Bool) (p : Pos) (h : scan.find? P = some p) (q : Pos)
    (hq : P q = true) : rank p ≤ rank q := by
  obtain ⟨_, front, back, hsplit, hfront⟩ := List.find?_eq_some.1 h
  have hsorted := scan_sorted
  rw [hsplit, List.pairwise_append] at hsorted
  obtain ⟨_, hback, _⟩ := hsorted
  have hmem : q ∈ front ++ p :: back := hsplit ▸ mem_scan q
  rcases List.mem_append.1 hmem with hin | hin
  · have := hfront q hin
    simp [hq] at this
  · rcases List.mem_cons.1 hin with rfl | hin2
    · exact le_refl _
    · exact le_of_lt ((List.pairwise_cons.1 hback).1 q hin2)

theorem lines_distinct (l : Pos × Pos × Pos) (hl : l ∈ lines) :
    l.1 ≠ l.2.1 ∧ l.1 ≠ l.2.2 ∧ l.2.1 ≠ l.2.2 := by
  simp only [lines, List.mem_cons, List.mem_singleton, List.not_mem_nil, or_false] at hl
  rcases hl with rfl | rfl | rfl | rfl | rfl | rfl | rfl | rfl <;> decide

theorem line_full_of_board_set (b : Board) (p : Pos) (v mark : CellState)
    (l : Pos × Pos × Pos) (hoff : ¬ on_line p l)
    (h : line_full (board_set b p.1 p.2 v) mark l) : line_full b mark l := by
  unfold on_line at hoff
  push_neg at hoff
  obtain ⟨h1, h2, h3⟩ := hoff
  have key : ∀ q : Pos, p ≠ q → board_set b p.1 p.2 v q.1 q.2 = b q.1 q.2 := by
    intro q hne
    apply board_set_other
    rintro ⟨ha, hb⟩
    exact hne (Prod.ext ha.symm hb.symm)
  unfold line_full at h ⊢
  rw [key _ h1, key _ h2, key _ h3] at h
  exact h

theorem wins_at_of_two_and_open (b : Board) (mark : CellState) (l : Pos × Pos × Pos)
    (hl : l ∈ lines) (h : two_and_open b mark l) :
    ∃ e : Pos, on_line e l ∧ wins_at b mark e = true := by
  obtain ⟨d1, d2, d3⟩ := lines_distinct l hl
  have setk : ∀ e q : Pos, e ≠ q → b q.1 q.2 = mark →
      board_set b e.1 e.2 mark q.1 q.2 = mark := by
    intro e q hne hq
    rw [board_set_other, hq]
    rintro ⟨ha, hb⟩
    exact hne (Prod.ext ha.symm hb.symm)
  rcases h with ⟨he, ha, hb⟩ | ⟨ha, he, hb⟩ | ⟨ha, hb, he⟩
  · refine ⟨l.1, Or.inl rfl, ?_⟩
    simp only [wins_at, is_empty_at, he, decide_True, Bool.true_and]
    exact (check_winner_iff_line _ _).2
      ⟨l, hl, board_set_same _ _ _ _, setk _ _ d1 ha, setk _ _ d2 hb⟩
  · refine ⟨l.2.1, Or.inr (Or.inl rfl), ?_⟩
    simp only [wins_at, is_empty_at, he, decide_True, Bool.true_and]
    exact (check_winner_iff_line _ _).2
      ⟨l, hl, setk _ _ d1.symm ha, board_set_same _ _ _ _, setk _ _ d3 hb⟩
  · refine ⟨l.2.2, Or.inr (Or.inr rfl), ?_⟩
    simp only [wins_at, is_empty_at, he, decide_True, Bool.true_and]
    exact (check_winner_iff_line _ _).2
      ⟨l, hl, setk _ _ d2.symm ha, setk _ _ d3.symm hb, board_set_same _ _ _ _⟩

theorem two_le_total_moves_of_two_and_open (b : Board) (mark : CellState)
    (l : Pos × Pos × Pos) (hl : l ∈ lines) (hmark : mark ≠ CELL_EMPTY)
    (h : two_and_open b mark l) : 2 ≤ total_moves b := by
  obtain ⟨d1, d2, d3⟩ := lines_distinct l hl
  rcases h with ⟨_, ha, hb⟩ | ⟨ha, _, hb⟩ | ⟨ha, hb, _⟩
  · exact two_le_total_moves b _ _ d3 (by rw [ha]; exact hmark) (by rw [hb]; exact hmark)
  · exact two_le_total_moves b _ _ d2 (by rw [ha]; exact hmark) (by rw [hb]; exact hmark)
  · exact two_le_total_moves b _ _ d1 (by rw [ha]; exact hmark) (by rw [hb]; exact hmark)

theorem wins_at_iff_completes (b : Board) (mark : CellState) (p : Pos)
    (hno : check_winner b mark = false) :
    wins_at b mark p = true ↔ completes_line b mark p := by
  simp only [wins_at, is_empty_at, Bool.and_eq_true, decide_eq_true_eq, completes_line]
  constructor
  · rintro ⟨he, hw⟩
    obtain ⟨l, hl, hfull⟩ := (check_winner_iff_line _ _).1 hw
    refine ⟨he, l, hl, ?_, hfull⟩
    by_contra hoff
    have := (check_winner_iff_line b mark).2 ⟨l, hl, line_full_of_board_set b p mark mark l hoff hfull⟩
    rw [hno] at this
    exact Bool.noConfusion this
  · rintro ⟨he, l, hl, _, hfull⟩
    exact ⟨he, (check_winner_iff_line _ _).2 ⟨l, hl, hfull⟩⟩

theorem get_eq_of_list_eq (l1 l2 : List Pos) (h : l1 = l2) (k : Nat) (hk : k < l1.length) :
    l2[k]? = some (l1.get ⟨k, hk⟩) := by
  subst h
  simp

/-! ## Session-level properties -/

/-- Claim C1, counterexample: on the initial session `make_move` with row 3 fails, its
test `board[row][col] != CELL_EMPTY` reading outside the 3x3 array, instead of
returning with the session unchanged. -/
theorem make_move_row_three_fails :
    make_move initial_app 3 0 zero_rand = none ∧
      make_move initial_app 3 0 zero_rand ≠ some (initial_app, zero_rand) := by
  have h : make_move initial_app 3 0 zero_rand = none := rfl
  exact ⟨h, by rw [h]; exact fun hc => Option.noConfusion hc⟩

/-- Claim C1, amended: for coordinates outside the 3x3 range the bounds check is
made by the pointer handler of `SDL_AppEvent`, which then leaves the session and
the random source unchanged without calling `make_move`; `make_move` itself is a
no-op on such coordinates when the game is over (the board is not read), and
when the game is being played it reads outside the array. -/
theorem out_of_range_click_ignored (app : AppState) (rng : RandState) (left : Bool)
    (row col : Int) (h : ¬ (0 ≤ row ∧ row < 3 ∧ 0 ≤ col ∧ col < 3)) :
    SDL_AppEvent app rng (MOUSE_BUTTON_DOWN left row col) = some (SDL_APP_CONTINUE, app, rng) ∧
      (app.game_state ≠ GAME_PLAYING → make_move app row col rng = some (app, rng)) ∧
      (app.game_state = GAME_PLAYING → make_move app row col rng = none) := by
  refine ⟨?_, ?_, ?_⟩
  · have h2 : ¬ (row ≥ 0 ∧ row < 3 ∧ col ≥ 0 ∧ col < 3) := h
    unfold SDL_AppEvent
    simp only [h2, if_false, ite_self]
  · intro hs
    unfold make_move
    rw [if_pos hs]
  · intro hs
    unfold make_move
    rw [if_neg (by simp [hs]), board_index_out_of_range row col h]

/-- Claim C1, evaluation of the amended statement at a click on row 3 of the initial
session. -/
theorem out_of_range_click_ignored_witness :
    SDL_AppEvent initial_app zero_rand (MOUSE_BUTTON_DOWN true 3 0) =
        some (SDL_APP_CONTINUE, initial_app, zero_rand) ∧
      (initial_app.game_state ≠ GAME_PLAYING →
        make_move initial_app 3 0 zero_rand = some (initial_app, zero_rand)) ∧
      (initial_app.game_state = GAME_PLAYING → make_move initial_app 3 0 zero_rand = none) :=
  out_of_range_click_ignored initial_app zero_rand true 3 0 (by decide)

/-- Claim C2: for every session, whatever its game state, and every in-range cell
that is not empty, `make_move` returns the session unchanged (board, game state
and cursor) and consumes no random draw: the machine does not move. -/
theorem occupied_cell_rejected (app : AppState) (rng : RandState) (i j : Fin 3)
    (h : app.board i j ≠ CELL_EMPTY) :
    make_move app (i.val : Int) (j.val : Int) rng = some (app, rng) := by
  unfold make_move
  by_cases hs : app.game_state = GAME_PLAYING
  · rw [if_neg (by simp [hs]), board_index_coe]
    simp only
    rw [if_pos h]
  · rw [if_pos hs]

/-- Claim C2, evaluation: a move on the cell (1,1), held by the machine, of a game
being played. -/
theorem occupied_cell_rejected_witness :
    two_in_row_app.board 1 1 ≠ CELL_EMPTY ∧
      make_move two_in_row_app ((1 : Fin 3).val : Int) ((1 : Fin 3).val : Int) zero_rand =
        some (two_in_row_app, zero_rand) :=
  ⟨by decide, occupied_cell_rejected two_in_row_app zero_rand 1 1 (by decide)⟩

/-- Claim C3: when the game state is `GAME_PLAYER_WIN`, `GAME_MACHINE_WIN` or
`GAME_DRAW`, `make_move` on any in-range cell, empty or not, returns the session
unchanged and consumes no random draw. -/
theorem terminal_state_absorbing (app : AppState) (rng : RandState) (i j : Fin 3)
    (h : app.game_state = GAME_PLAYER_WIN ∨ app.game_state = GAME_MACHINE_WIN ∨
      app.game_state = GAME_DRAW) :
    make_move app (i.val : Int) (j.val : Int) rng = some (app, rng) := by
  have hs : app.game_state ≠ GAME_PLAYING := by
    rcases h with h | h | h <;> rw [h] <;> decide
  unfold make_move
  rw [if_pos hs]

/-- Claim C3, evaluation: a move on the empty cell (2,2) of a game the player has
won. -/
theorem terminal_state_absorbing_witness :
    (player_won_app.game_state = GAME_PLAYER_WIN ∨
        player_won_app.game_state = GAME_MACHINE_WIN ∨ player_won_app.game_state = GAME_DRAW) ∧
      player_won_app.board 2 2 = CELL_EMPTY ∧
      make_move player_won_app ((2 : Fin 3).val : Int) ((2 : Fin 3).val : Int) zero_rand =
        some (player_won_app, zero_rand) :=
  ⟨by decide, by decide,
    terminal_state_absorbing player_won_app zero_rand 2 2 (by decide)⟩

/-- Claim C4: in a game being played, a move on an in-range empty cell that gives the
player a line yields the game state `GAME_PLAYER_WIN` and the prior board with
only that cell changed, to the player mark; the machine places no mark and no
random draw is consumed. The board being full after the move does not matter. -/
theorem winning_move_ends_game (app : AppState) (rng : RandState) (i j : Fin 3)
    (hs : app.game_state = GAME_PLAYING) (he : app.board i j = CELL_EMPTY)
    (hw : check_winner (board_set app.board i j CELL_PLAYER) CELL_PLAYER = true) :
    ∃ app1 : AppState,
      make_move app (i.val : Int) (j.val : Int) rng = some (app1, rng) ∧
      app1.game_state = GAME_PLAYER_WIN ∧
      (∀ r c : Fin 3, app1.board r c = if r = i ∧ c = j then CELL_PLAYER else app.board r c) ∧
      (∀ r c : Fin 3, app1.board r c = CELL_MACHINE ↔ app.board r c = CELL_MACHINE) ∧
      app1.selected_row = app.selected_row ∧ app1.selected_col = app.selected_col := by
  refine ⟨{ app with board := board_set app.board i j CELL_PLAYER,
                     game_state := GAME_PLAYER_WIN }, ?_, rfl, fun r c => rfl, ?_, rfl, rfl⟩
  · unfold make_move
    rw [if_neg (by simp [hs]), board_index_coe]
    simp only
    rw [if_neg (by simp [he]), if_pos hw]
  · intro r c
    simp only [board_set]
    by_cases hrc : r = i ∧ c = j
    · obtain ⟨rfl, rfl⟩ := hrc
      simp [he]
    · simp [hrc]

/-- Claim C4, evaluation: the move on (2,2) that fills the last empty cell and
completes the main diagonal is scored `GAME_PLAYER_WIN`. -/
theorem winning_move_ends_game_witness :
    is_board_full (board_set last_cell_app.board 2 2 CELL_PLAYER) = true ∧
    ∃ app1 : AppState,
      make_move last_cell_app ((2 : Fin 3).val : Int) ((2 : Fin 3).val : Int) zero_rand =
        some (app1, zero_rand) ∧
      app1.game_state = GAME_PLAYER_WIN ∧
      (∀ r c : Fin 3, app1.board r c =
        if r = 2 ∧ c = 2 then CELL_PLAYER else last_cell_app.board r c) ∧
      (∀ r c : Fin 3, app1.board r c = CELL_MACHINE ↔ last_cell_app.board r c = CELL_MACHINE) ∧
      app1.selected_row = last_cell_app.selected_row ∧
      app1.selected_col = last_cell_app.selected_col :=
  ⟨by decide, winning_move_ends_game last_cell_app zero_rand 2 2 rfl (by decide) (by decide)⟩

/-- Claim C5: for every session, whatever its board and game state, the `R` key
handling of `SDL_AppEvent` succeeds and yields a session whose 9 cells are empty
and whose game state is `GAME_PLAYING`; the cursor and the random source are
unchanged. -/
theorem reset_clears_board (app : AppState) (rng : RandState) :
    ∃ app1 : AppState,
      SDL_AppEvent app rng (KEY_DOWN R) = some (SDL_APP_CONTINUE, app1, rng) ∧
      (∀ i j : Fin 3, app1.board i j = CELL_EMPTY) ∧ app1.game_state = GAME_PLAYING ∧
      app1.selected_row = app.selected_row ∧ app1.selected_col = app.selected_col :=
  ⟨reset_game app, reset_key_eq app rng, fun _ _ => rfl, rfl, rfl, rfl⟩

/-- Claim C6: on the board of every session reachable from the initial one by moves
with in-range coordinates and resets, under any random draws, the player and the
machine do not both have a line. -/
theorem no_two_winners (app : AppState) (h : Reachable app) :
    ¬ (check_winner app.board CELL_PLAYER = true ∧
       check_winner app.board CELL_MACHINE = true) := by
  have hinv := status_consistent_of_reachable app h
  unfold status_consistent at hinv
  rintro ⟨hp, hm⟩
  cases hs : app.game_state <;> rw [hs] at hinv <;> simp_all

/-- Claim C6, evaluation at the session reached by the opening move (0,0). -/
theorem no_two_winners_witness :
    ¬ (check_winner after_first_move.board CELL_PLAYER = true ∧
       check_winner after_first_move.board CELL_MACHINE = true) :=
  no_two_winners after_first_move
    (Reachable.move 0 0 Reachable.init (by decide) (by decide) (by decide) (by decide)
      (rfl : make_move initial_app 0 0 zero_rand = some (after_first_move, (rand zero_rand).2)))

/-- Claim C7: in every reachable session the game state is the one derived from the
board: player win iff the player has a line, machine win iff the machine has a
line, draw iff the board is full without a line, playing iff the board is not
full and without a line. -/
theorem status_derived_from_board (app : AppState) (h : Reachable app) :
    (app.game_state = GAME_PLAYER_WIN ↔ check_winner app.board CELL_PLAYER = true) ∧
    (app.game_state = GAME_MACHINE_WIN ↔ check_winner app.board CELL_MACHINE = true) ∧
    (app.game_state = GAME_DRAW ↔
      (is_board_full app.board = true ∧ check_winner app.board CELL_PLAYER = false ∧
        check_winner app.board CELL_MACHINE = false)) ∧
    (app.game_state = GAME_PLAYING ↔
      (is_board_full app.board = false ∧ check_winner app.board CELL_PLAYER = false ∧
        check_winner app.board CELL_MACHINE = false)) := by
  have hinv := status_consistent_of_reachable app h
  unfold status_consistent at hinv
  cases hs : app.game_state <;> rw [hs] at hinv <;> simp_all

/-- Claim C7, evaluation at the session reached by the opening move (0,0). -/
theorem status_derived_from_board_witness :
    (after_first_move.game_state = GAME_PLAYER_WIN ↔
      check_winner after_first_move.board CELL_PLAYER = true) ∧
    (after_first_move.game_state = GAME_MACHINE_WIN ↔
      check_winner after_first_move.board CELL_MACHINE = true) ∧
    (after_first_move.game_state = GAME_DRAW ↔
      (is_board_full after_first_move.board = true ∧
        check_winner after_first_move.board CELL_PLAYER = false ∧
        check_winner after_first_move.board CELL_MACHINE = false)) ∧
    (after_first_move.game_state = GAME_PLAYING ↔
      (is_board_full after_first_move.board = false ∧
        check_winner after_first_move.board CELL_PLAYER = false ∧
        check_winner after_first_move.board CELL_MACHINE = false)) :=
  status_derived_from_board after_first_move
    (Reachable.move 0 0 Reachable.init (by decide) (by decide) (by decide) (by decide)
      (rfl : make_move initial_app 0 0 zero_rand = some (after_first_move, (rand zero_rand).2)))

/-- Claim C8: for every board and every mark, `check_winner` returns true iff one of
the 8 lines (rows 0-2, columns 0-2, the two diagonals) has its three cells equal
to that mark. The function only reads the board: it is a pure function of it. -/
theorem check_winner_iff_some_line (b : Board) (mark : CellState) :
    check_winner b mark = true ↔
      ∃ l ∈ lines, b l.1.1 l.1.2 = mark ∧ b l.2.1.1 l.2.1.2 = mark ∧ b l.2.2.1 l.2.2.2 = mark :=
  check_winner_iff_line b mark

/-! ## The opponent: block rule and opening -/

/-- Claim C9 (block rule): on a board where the player has no line (the machine is
about to move), where no empty cell gives the machine a line when filled with
the machine mark, and where some line holds two player marks and an empty third
cell, `machine_move` writes the machine mark on the first cell in row-major
order among the empty cells that complete a player line, changes no other cell,
consumes no random draw, and afterwards the player has no line: in particular
the line of the hypothesis is not entirely the player's. -/
theorem block_rule_fires (b : Board) (rng : RandState) (l : Pos × Pos × Pos)
    (hl : l ∈ lines)
    (hplayer : check_winner b CELL_PLAYER = false)
    (hnowin : ∀ q : Pos, b q.1 q.2 = CELL_EMPTY →
      check_winner (board_set b q.1 q.2 CELL_MACHINE) CELL_MACHINE = false)
    (htwo : two_and_open b CELL_PLAYER l) :
    ∃ p : Pos,
      completes_line b CELL_PLAYER p ∧
      (∀ q : Pos, completes_line b CELL_PLAYER q → rank p ≤ rank q) ∧
      machine_move b rng = (board_set b p.1 p.2 CELL_MACHINE, rng) ∧
      (∀ r c : Fin 3, (machine_move b rng).1 r c =
        if r = p.1 ∧ c = p.2 then CELL_MACHINE else b r c) ∧
      check_winner (machine_move b rng).1 CELL_PLAYER = false ∧
      ¬ line_full (machine_move b rng).1 CELL_PLAYER l := by
  have hne : total_moves b ≠ 1 := by
    have := two_le_total_moves_of_two_and_open b CELL_PLAYER l hl (by decide) htwo
    omega
  have hwin : scan.find? (wins_at b CELL_MACHINE) = none := by
    rw [List.find?_eq_none]
    intro q _ hq
    simp only [wins_at, is_empty_at, Bool.and_eq_true, decide_eq_true_eq] at hq
    rw [hnowin q hq.1] at hq
    exact Bool.noConfusion hq.2
  obtain ⟨e, _, he⟩ := wins_at_of_two_and_open b CELL_PLAYER l hl htwo
  have hsome : scan.find? (wins_at b CELL_PLAYER) ≠ none := by
    intro hn
    rw [List.find?_eq_none] at hn
    exact hn e (mem_scan e) he
  obtain ⟨p, hp⟩ := Option.ne_none_iff_exists'.1 hsome
  have hmove : machine_move b rng = (board_set b p.1 p.2 CELL_MACHINE, rng) := by
    rw [machine_move_of_ne_one b rng hne, machine_strategy_eq]
    simp [reference_cell, hwin, hp]
  have hafter : check_winner (board_set b p.1 p.2 CELL_MACHINE) CELL_PLAYER = false :=
    check_winner_board_set_false b p.1 p.2 CELL_MACHINE CELL_PLAYER (by decide) hplayer
  refine ⟨p, (wins_at_iff_completes b CELL_PLAYER p hplayer).1 (List.find?_some hp), ?_, hmove,
    ?_, ?_, ?_⟩
  · intro q hq
    exact find_scan_least _ p hp q ((wins_at_iff_completes b CELL_PLAYER q hplayer).2 hq)
  · intro r c
    rw [hmove]
    rfl
  · rw [hmove]
    exact hafter
  · rw [hmove]
    intro hfull
    have := (check_winner_iff_line _ _).2 ⟨l, hl, hfull⟩
    rw [hafter] at this
    exact Bool.noConfusion this

/-- Claim C9, evaluation on the board with player marks at (0,0), (0,1) and the
machine mark at (1,1): the top row is the open line. -/
theorem block_rule_fires_witness :
    ((0, 0), (0, 1), (0, 2)) ∈ lines ∧
    check_winner two_in_row_app.board CELL_PLAYER = false ∧
    (∀ q : Pos, two_in_row_app.board q.1 q.2 = CELL_EMPTY →
      check_winner (board_set two_in_row_app.board q.1 q.2 CELL_MACHINE) CELL_MACHINE = false) ∧
    two_and_open two_in_row_app.board CELL_PLAYER ((0, 0), (0, 1), (0, 2)) ∧
    ∃ p : Pos,
      completes_line two_in_row_app.board CELL_PLAYER p ∧
      (∀ q : Pos, completes_line two_in_row_app.board CELL_PLAYER q → rank p ≤ rank q) ∧
      machine_move two_in_row_app.board zero_rand =
        (board_set two_in_row_app.board p.1 p.2 CELL_MACHINE, zero_rand) ∧
      (∀ r c : Fin 3, (machine_move two_in_row_app.board zero_rand).1 r c =
        if r = p.1 ∧ c = p.2 then CELL_MACHINE else two_in_row_app.board r c) ∧
      check_winner (machine_move two_in_row_app.board zero_rand).1 CELL_PLAYER = false ∧
      ¬ line_full (machine_move two_in_row_app.board zero_rand).1 CELL_PLAYER
        ((0, 0), (0, 1), (0, 2)) :=
  ⟨by decide, by decide, by decide, Or.inr (Or.inr ⟨rfl, rfl, rfl⟩),
    block_rule_fires two_in_row_app.board zero_rand ((0, 0), (0, 1), (0, 2)) (by decide)
      (by decide) (by decide) (Or.inr (Or.inr ⟨rfl, rfl, rfl⟩))⟩

/-- Claim C10 (opening variety rule): on a board holding exactly one mark, whatever the
random draws, `machine_move` writes the machine mark on one cell that was empty
and is one of (1,1), (0,0), (0,2), (2,0), (2,2), and changes no other cell. When
the center is empty and the first draw modulo 100 is below 60 the cell is the
center; otherwise it is the element of index (next draw modulo k) of the empty
members of the list [(1,1), (0,0), (0,2), (2,0), (2,2)] in that order, k > 0
being their number, the next draw being the second one when the center is
empty (the first one was consumed by the center test) and the first one when it
is not. -/
theorem opening_variety_rule (b : Board) (rng : RandState) (h1 : total_moves b = 1) :
    ∃ p : Pos,
      p ∈ good_positions ∧ b p.1 p.2 = CELL_EMPTY ∧
      (∀ r c : Fin 3, (machine_move b rng).1 r c =
        if r = p.1 ∧ c = p.2 then CELL_MACHINE else b r c) ∧
      0 < (good_positions.filter (is_empty_at b)).length ∧
      (b 1 1 = CELL_EMPTY ∧ (rand rng).1 % 100 < 60 →
        p = (1, 1) ∧ (machine_move b rng).2 = (rand rng).2) ∧
      (b 1 1 = CELL_EMPTY ∧ ¬ (rand rng).1 % 100 < 60 →
        (good_positions.filter (is_empty_at b))[(rand (rand rng).2).1 %
            (good_positions.filter (is_empty_at b)).length]? = some p ∧
          (machine_move b rng).2 = (rand (rand rng).2).2) ∧
      (b 1 1 ≠ CELL_EMPTY →
        (good_positions.filter (is_empty_at b))[(rand rng).1 %
            (good_positions.filter (is_empty_at b)).length]? = some p ∧
          (machine_move b rng).2 = (rand rng).2) := by
  have hav := available_pos_of_one b h1
  have hlist : available_positions b [] good_positions = good_positions.filter (is_empty_at b) := by
    rw [available_positions_eq, List.nil_append]
  have hlen : 0 < (good_positions.filter (is_empty_at b)).length := hlist ▸ hav
  by_cases hc : b 1 1 = CELL_EMPTY
  · by_cases hd : (rand rng).1 % 100 < 60
    · have hmove := machine_move_center b rng h1 hc hd
      refine ⟨(1, 1), by decide, hc, ?_, hlen, ?_, ?_, ?_⟩
      · intro r c
        rw [hmove]
        rfl
      · intro _
        exact ⟨rfl, by rw [hmove]⟩
      · rintro ⟨_, hnd⟩
        exact absurd hd hnd
      · intro hnc
        exact absurd hc hnc
    · have hmove := machine_move_random_after_draw b rng h1 hc hd hav
      have hmem := available_positions_mem b _
        (List.get_mem (available_positions b [] good_positions)
          ((rand (rand rng).2).1 % (available_positions b [] good_positions).length)
          (Nat.mod_lt _ hav))
      refine ⟨_, hmem.1, hmem.2, ?_, hlen, ?_, ?_, ?_⟩
      · intro r c
        rw [hmove]
        rfl
      · rintro ⟨_, hd2⟩
        exact absurd hd2 hd
      · intro _
        refine ⟨?_, by rw [hmove]⟩
        rw [← hlist]
        exact get_eq_of_list_eq _ _ rfl _ _
      · intro hnc
        exact absurd hc hnc
  · have hmove := machine_move_random_first_draw b rng h1 hc hav
    have hmem := available_positions_mem b _
      (List.get_mem (available_positions b [] good_positions)
        ((rand rng).1 % (available_positions b [] good_positions).length)
        (Nat.mod_lt _ hav))
    refine ⟨_, hmem.1, hmem.2, ?_, hlen, ?_, ?_, ?_⟩
    · intro r c
      rw [hmove]
      rfl
    · rintro ⟨hc2, _⟩
      exact absurd hc2 hc
    · rintro ⟨hc2, _⟩
      exact absurd hc2 hc
    · intro _
      refine ⟨?_, by rw [hmove]⟩
      rw [← hlist]
      exact get_eq_of_list_eq _ _ rfl _ _

/-- Claim C10, evaluation on the board with the single player mark at (0,0) and a
random source whose draws are all 61. -/
theorem opening_variety_rule_witness :
    total_moves corner_opening_board = 1 ∧
    ∃ p : Pos,
      p ∈ good_positions ∧ corner_opening_board p.1 p.2 = CELL_EMPTY ∧
      (∀ r c : Fin 3, (machine_move corner_opening_board sixty_one_rand).1 r c =
        if r = p.1 ∧ c = p.2 then CELL_MACHINE else corner_opening_board r c) ∧
      0 < (good_positions.filter (is_empty_at corner_opening_board)).length ∧
      (corner_opening_board 1 1 = CELL_EMPTY ∧ (rand sixty_one_rand).1 % 100 < 60 →
        p = (1, 1) ∧
          (machine_move corner_opening_board sixty_one_rand).2 = (rand sixty_one_rand).2) ∧
      (corner_opening_board 1 1 = CELL_EMPTY ∧ ¬ (rand sixty_one_rand).1 % 100 < 60 →
        (good_positions.filter (is_empty_at corner_opening_board))[
            (rand (rand sixty_one_rand).2).1 %
            (good_positions.filter (is_empty_at corner_opening_board)).length]? = some p ∧
          (machine_move corner_opening_board sixty_one_rand).2 =
            (rand (rand sixty_one_rand).2).2) ∧
      (corner_opening_board 1 1 ≠ CELL_EMPTY →
        (good_positions.filter (is_empty_at corner_opening_board))[
            (rand sixty_one_rand).1 %
            (good_positions.filter (is_empty_at corner_opening_board)).length]? = some p ∧
          (machine_move corner_opening_board sixty_one_rand).2 = (rand sixty_one_rand).2) :=
  ⟨by decide, opening_variety_rule corner_opening_board sixty_one_rand (by decide)⟩

/-! ## The opponent: fixed-priority strategy -/

theorem scan_eq_row_major_cells : scan = row_major_cells := rfl

theorem corners_eq_corner_order : corners = corner_order := rfl

theorem row_major_cells_sorted : row_major_cells.Pairwise (fun p q => rank p < rank q) := by
  decide

theorem wins_at_eq_fills_line (b : Board) (mark : CellState) :
    wins_at b mark = fun p => decide (fills_line b mark p) := by
  funext p
  rw [Bool.eq_iff_iff]
  simp only [wins_at, is_empty_at, Bool.and_eq_true, decide_eq_true_eq, fills_line,
    check_winner_iff_line]

theorem wins_at_eq_completes_line (b : Board) (mark : CellState)
    (hno : check_winner b mark = false) :
    wins_at b mark = fun p => decide (completes_line b mark p) := by
  funext p
  rw [Bool.eq_iff_iff, decide_eq_true_eq]
  exact wins_at_iff_completes b mark p hno

theorem reference_cell_eq_fill_reference (b : Board) :
    reference_cell b = fill_reference_cell b := by
  unfold reference_cell fill_reference_cell priority_cell
  rw [wins_at_eq_fills_line b CELL_MACHINE, wins_at_eq_fills_line b CELL_PLAYER,
    scan_eq_row_major_cells, corners_eq_corner_order]
  rfl

theorem reference_cell_eq_line_reference (b : Board)
    (hm : check_winner b CELL_MACHINE = false) (hp : check_winner b CELL_PLAYER = false) :
    reference_cell b = line_reference_cell b := by
  unfold reference_cell line_reference_cell priority_cell
  rw [wins_at_eq_completes_line b CELL_MACHINE hm, wins_at_eq_completes_line b CELL_PLAYER hp,
    scan_eq_row_major_cells, corners_eq_corner_order]
  rfl

/-- Claim C11, counterexample: the board on which the machine already holds the top row
has empty cells and 3 marks; no empty cell completes a line for either side and
the center is empty, so the reference of the claim gives the center (1,1), but
`machine_move` writes the machine mark on (1,0) and leaves the center empty:
its win test is `check_winner` on the whole board, true here after any write. -/
theorem machine_move_not_line_reference :
    (∃ q : Pos, machine_line_board q.1 q.2 = CELL_EMPTY) ∧
    total_moves machine_line_board ≠ 1 ∧
    (∀ q : Pos, ¬ completes_line machine_line_board CELL_MACHINE q) ∧
    (∀ q : Pos, ¬ completes_line machine_line_board CELL_PLAYER q) ∧
    line_reference_cell machine_line_board = some (1, 1) ∧
    (machine_move machine_line_board zero_rand).1 1 1 = CELL_EMPTY ∧
    (machine_move machine_line_board zero_rand).1 1 0 = CELL_MACHINE :=
  ⟨⟨(1, 0), by decide⟩, by decide, by decide, by decide, by decide, by decide, by decide⟩

/-- Claim C11, amended: on every board with at least one empty cell and a number of
marks different from 1, `machine_move` writes the machine mark on exactly one
cell, which was empty, and leaves every other cell as it was (the tentative
writes of the win and block loops are undone); the random state is returned
untouched and the board is the same for every random source. The cell is the
one of `fill_reference_cell`: the first empty cell in row-major order whose
filling with the machine mark makes `has_line` true for the machine; else the
first one whose filling with the player mark makes `has_line` true for the
player; else the center if empty; else the first empty corner in the order
(0,0), (0,2), (2,0), (2,2); else the first empty cell in row-major order. When
neither side has a line on the board, it is also the cell of
`line_reference_cell`, where the first two tests are "completes a machine
line" and "would complete a player line". -/
theorem machine_move_eq_fill_reference (b : Board) (rng : RandState)
    (hfree : ∃ q : Pos, b q.1 q.2 = CELL_EMPTY) (hmarks : total_moves b ≠ 1) :
    ∃ p : Pos,
      fill_reference_cell b = some p ∧ b p.1 p.2 = CELL_EMPTY ∧
      machine_move b rng = (board_set b p.1 p.2 CELL_MACHINE, rng) ∧
      (∀ r c : Fin 3, (machine_move b rng).1 r c =
        if r = p.1 ∧ c = p.2 then CELL_MACHINE else b r c) ∧
      (∀ rng2 : RandState, (machine_move b rng2).1 = (machine_move b rng).1) ∧
      (check_winner b CELL_MACHINE = false → check_winner b CELL_PLAYER = false →
        line_reference_cell b = some p) := by
  obtain ⟨p, hp, href, hstrat⟩ :=
    machine_strategy_places b ((is_board_full_eq_false b).2 hfree)
  have hmove : ∀ s : RandState, machine_move b s = (board_set b p.1 p.2 CELL_MACHINE, s) := by
    intro s
    rw [machine_move_of_ne_one b s hmarks, hstrat]
  refine ⟨p, ?_, hp, hmove rng, ?_, ?_, ?_⟩
  · rw [← reference_cell_eq_fill_reference, href]
  · intro r c
    rw [hmove rng]
    rfl
  · intro rng2
    rw [hmove rng2, hmove rng]
  · intro hm hpl
    rw [← reference_cell_eq_line_reference b hm hpl, href]

/-- Claim C11, evaluation of the amended statement on a board where the corner rule
decides (machine mark at (0,0), player marks at (1,1) and (2,2)): neither side
has a line, both references give the corner (0,2) and `machine_move` writes the
machine mark there. -/
theorem machine_move_eq_fill_reference_witness :
    (∃ q : Pos, corner_rule_board q.1 q.2 = CELL_EMPTY) ∧ total_moves corner_rule_board ≠ 1 ∧
    check_winner corner_rule_board CELL_MACHINE = false ∧
    check_winner corner_rule_board CELL_PLAYER = false ∧
    fill_reference_cell corner_rule_board = some (0, 2) ∧
    line_reference_cell corner_rule_board = some (0, 2) ∧
    (machine_move corner_rule_board sixty_one_rand).1 0 2 = CELL_MACHINE ∧
    ∃ p : Pos,
      fill_reference_cell corner_rule_board = some p ∧ corner_rule_board p.1 p.2 = CELL_EMPTY ∧
      machine_move corner_rule_board sixty_one_rand =
        (board_set corner_rule_board p.1 p.2 CELL_MACHINE, sixty_one_rand) ∧
      (∀ r c : Fin 3, (machine_move corner_rule_board sixty_one_rand).1 r c =
        if r = p.1 ∧ c = p.2 then CELL_MACHINE else corner_rule_board r c) ∧
      (∀ rng2 : RandState, (machine_move corner_rule_board rng2).1 =
        (machine_move corner_rule_board sixty_one_rand).1) ∧
      (check_winner corner_rule_board CELL_MACHINE = false →
        check_winner corner_rule_board CELL_PLAYER = false →
        line_reference_cell corner_rule_board = some p) :=
  ⟨⟨(0, 1), by decide⟩, by decide, by decide, by decide, by decide, by decide, by decide,
    machine_move_eq_fill_reference corner_rule_board sixty_one_rand ⟨(0, 1), by decide⟩
      (by decide)⟩

/-! ## The selection cursor -/

theorem cursor_dec_of_nonneg (x : Int) (h0 : 0 ≤ x) (h1 : x ≤ 2147483645) :
    cursor_dec x = some ((x + 2) % 3) := by
  have ha : int_result (x - 1) = some (x - 1) := by
    unfold int_result
    rw [if_pos (by omega)]
  have hb : int_result (x - 1 + 3) = some (x + 2) := by
    unfold int_result
    rw [if_pos (by omega)]
    congr 1
    omega
  unfold cursor_dec
  rw [ha]
  simp only [Option.some_bind, hb, Option.map_some']
  rw [Int.tmod_eq_emod (by omega) (by decide)]

theorem cursor_inc_of_nonneg (x : Int) (h0 : 0 ≤ x) (h1 : x ≤ 2147483645) :
    cursor_inc x = some ((x + 1) % 3) := by
  have ha : int_result (x + 1) = some (x + 1) := by
    unfold int_result
    rw [if_pos (by omega)]
  unfold cursor_inc
  rw [ha]
  simp only [Option.map_some']
  rw [Int.tmod_eq_emod (by omega) (by decide)]

/-- Claim C12, counterexample: in a game the player has won, with the cursor on row 0,
the UP key leaves the session unchanged: the cursor row stays 0 instead of
becoming (0 + 2) mod 3 = 2. -/
theorem arrow_key_ignored_after_game_over :
    SDL_AppEvent player_won_app zero_rand (KEY_DOWN UP) =
        some (SDL_APP_CONTINUE, player_won_app, zero_rand) ∧
      player_won_app.game_state = GAME_PLAYER_WIN ∧
      player_won_app.selected_row = 0 ∧
      (player_won_app.selected_row + 2) % 3 = 2 :=
  ⟨rfl, rfl, rfl, by decide⟩

/-- Claim C12, amended: for every session whose cursor coordinates are non-negative and
at most 2147483645 (so that the `int` arithmetic does not overflow; in
particular for a cursor in [0,2]x[0,2]): while the game is being played, UP
maps the cursor row r to (r+2) mod 3, DOWN to (r+1) mod 3, LEFT maps the column
c to (c+2) mod 3 and RIGHT to (c+1) mod 3, the other coordinate, the board, the
game state and the random source being unchanged, and the new coordinate lies
in [0,2]; once the game is over the four arrow keys leave the session
unchanged. -/
theorem cursor_keys_wrap_while_playing (app : AppState) (rng : RandState)
    (hrow : 0 ≤ app.selected_row ∧ app.selected_row ≤ 2147483645)
    (hcol : 0 ≤ app.selected_col ∧ app.selected_col ≤ 2147483645) :
    (app.game_state = GAME_PLAYING →
      SDL_AppEvent app rng (KEY_DOWN UP) =
        some (SDL_APP_CONTINUE, { app with selected_row := (app.selected_row + 2) % 3 }, rng) ∧
      SDL_AppEvent app rng (KEY_DOWN DOWN) =
        some (SDL_APP_CONTINUE, { app with selected_row := (app.selected_row + 1) % 3 }, rng) ∧
      SDL_AppEvent app rng (KEY_DOWN LEFT) =
        some (SDL_APP_CONTINUE, { app with selected_col := (app.selected_col + 2) % 3 }, rng) ∧
      SDL_AppEvent app rng (KEY_DOWN RIGHT) =
        some (SDL_APP_CONTINUE, { app with selected_col := (app.selected_col + 1) % 3 }, rng)) ∧
    (app.game_state ≠ GAME_PLAYING →
      ∀ k : Scancode, k = UP ∨ k = DOWN ∨ k = LEFT ∨ k = RIGHT →
        SDL_AppEvent app rng (KEY_DOWN k) = some (SDL_APP_CONTINUE, app, rng)) ∧
    (0 ≤ (app.selected_row + 2) % 3 ∧ (app.selected_row + 2) % 3 ≤ 2 ∧
      0 ≤ (app.selected_row + 1) % 3 ∧ (app.selected_row + 1) % 3 ≤ 2 ∧
      0 ≤ (app.selected_col + 2) % 3 ∧ (app.selected_col + 2) % 3 ≤ 2 ∧
      0 ≤ (app.selected_col + 1) % 3 ∧ (app.selected_col + 1) % 3 ≤ 2) := by
  refine ⟨?_, ?_, by omega⟩
  · intro hs
    refine ⟨?_, ?_, ?_, ?_⟩
    · simp only [SDL_AppEvent, hs, if_true]
      rw [if_neg (by decide), cursor_dec_of_nonneg _ hrow.1 hrow.2]
      rfl
    · simp only [SDL_AppEvent, hs, if_true]
      rw [if_neg (by decide), cursor_inc_of_nonneg _ hrow.1 (by omega)]
      rfl
    · simp only [SDL_AppEvent, hs, if_true]
      rw [if_neg (by decide), cursor_dec_of_nonneg _ hcol.1 hcol.2]
      rfl
    · simp only [SDL_AppEvent, hs, if_true]
      rw [if_neg (by decide), cursor_inc_of_nonneg _ hcol.1 (by omega)]
      rfl
  · intro hs k hk
    rcases hk with rfl | rfl | rfl | rfl <;>
      · simp only [SDL_AppEvent, hs, if_false]
        rw [if_neg (by decide), if_neg (by decide)]

/-- Claim C12, evaluation of the amended statement at a game being played whose cursor
is on (2,2): DOWN and RIGHT wrap to 0. -/
theorem cursor_keys_wrap_while_playing_witness :
    (0 ≤ last_cell_app.selected_row ∧ last_cell_app.selected_row ≤ 2147483645) ∧
    (0 ≤ last_cell_app.selected_col ∧ last_cell_app.selected_col ≤ 2147483645) ∧
    ((last_cell_app.game_state = GAME_PLAYING →
      SDL_AppEvent last_cell_app zero_rand (KEY_DOWN UP) =
        some (SDL_APP_CONTINUE,
          { last_cell_app with selected_row := (last_cell_app.selected_row + 2) % 3 },
          zero_rand) ∧
      SDL_AppEvent last_cell_app zero_rand (KEY_DOWN DOWN) =
        some (SDL_APP_CONTINUE,
          { last_cell_app with selected_row := (last_cell_app.selected_row + 1) % 3 },
          zero_rand) ∧
      SDL_AppEvent last_cell_app zero_rand (KEY_DOWN LEFT) =
        some (SDL_APP_CONTINUE,
          { last_cell_app with selected_col := (last_cell_app.selected_col + 2) % 3 },
          zero_rand) ∧
      SDL_AppEvent last_cell_app zero_rand (KEY_DOWN RIGHT) =
        some (SDL_APP_CONTINUE,
          { last_cell_app with selected_col := (last_cell_app.selected_col + 1) % 3 },
          zero_rand)) ∧
    (last_cell_app.game_state ≠ GAME_PLAYING →
      ∀ k : Scancode, k = UP ∨ k = DOWN ∨ k = LEFT ∨ k = RIGHT →
        SDL_AppEvent last_cell_app zero_rand (KEY_DOWN k) =
          some (SDL_APP_CONTINUE, last_cell_app, zero_rand)) ∧
    (0 ≤ (last_cell_app.selected_row + 2) % 3 ∧ (last_cell_app.selected_row + 2) % 3 ≤ 2 ∧
      0 ≤ (last_cell_app.selected_row + 1) % 3 ∧ (last_cell_app.selected_row + 1) % 3 ≤ 2 ∧
      0 ≤ (last_cell_app.selected_col + 2) % 3 ∧ (last_cell_app.selected_col + 2) % 3 ≤ 2 ∧
      0 ≤ (last_cell_app.selected_col + 1) % 3 ∧ (last_cell_app.selected_col + 1) % 3 ≤ 2)) :=
  ⟨by decide, by decide,
    cursor_keys_wrap_while_playing last_cell_app zero_rand (by decide) (by decide)⟩

/-! ## A game won by the player -/

/-- Claim C13: the heuristic can be beaten. With a random source whose draws are all
61 the machine answers the opening (0,0) with the random opening (0,2); the
player then plays (2,2), (2,0) and (2,1), every call of `make_move` succeeds,
the game is still being played before the last move and the last move, which
completes the bottom row, yields `GAME_PLAYER_WIN`. The final session is
reachable. -/
theorem opponent_can_be_beaten :
    ∃ (rng : RandState) (a1 a2 a3 a4 : AppState) (r1 r2 r3 r4 : RandState),
      make_move initial_app 0 0 rng = some (a1, r1) ∧
      a1.board 0 2 = CELL_MACHINE ∧
      make_move a1 2 2 r1 = some (a2, r2) ∧
      make_move a2 2 0 r2 = some (a3, r3) ∧
      a3.game_state = GAME_PLAYING ∧
      make_move a3 2 1 r3 = some (a4, r4) ∧
      a4.game_state = GAME_PLAYER_WIN ∧
      check_winner a4.board CELL_PLAYER = true ∧
      Reachable a4 := by
  have hplay :
      ((((make_move initial_app 0 0 sixty_one_rand).bind fun s =>
          (make_move s.1 2 2 s.2).bind fun t =>
            (make_move t.1 2 0 t.2).bind fun u =>
              (make_move u.1 2 1 u.2).map fun v =>
                (s.1.board 0 2, u.1.game_state, v.1.game_state,
                  check_winner v.1.board CELL_PLAYER))) =
        some (CELL_MACHINE, GAME_PLAYING, GAME_PLAYER_WIN, true)) := by
    decide
  cases h1 : make_move initial_app 0 0 sixty_one_rand with
  | none => rw [h1] at hplay; exact Option.noConfusion hplay
  | some s =>
    rw [h1] at hplay
    simp only [Option.some_bind] at hplay
    cases h2 : make_move s.1 2 2 s.2 with
    | none => rw [h2] at hplay; exact Option.noConfusion hplay
    | some t =>
      rw [h2] at hplay
      simp only [Option.some_bind] at hplay
      cases h3 : make_move t.1 2 0 t.2 with
      | none => rw [h3] at hplay; exact Option.noConfusion hplay
      | some u =>
        rw [h3] at hplay
        simp only [Option.some_bind] at hplay
        cases h4 : make_move u.1 2 1 u.2 with
        | none => rw [h4] at hplay; exact Option.noConfusion hplay
        | some v =>
          rw [h4] at hplay
          simp only [Option.map_some', Option.some.injEq, Prod.mk.injEq] at hplay
          obtain ⟨hb, hu, hv, hw⟩ := hplay
          have hr1 : Reachable s.1 :=
            Reachable.move 0 0 Reachable.init (by decide) (by decide) (by decide) (by decide) h1
          have hr2 : Reachable t.1 :=
            Reachable.move 2 2 hr1 (by decide) (by decide) (by decide) (by decide) h2
          have hr3 : Reachable u.1 :=
            Reachable.move 2 0 hr2 (by decide) (by decide) (by decide) (by decide) h3
          have hr4 : Reachable v.1 :=
            Reachable.move 2 1 hr3 (by decide) (by decide) (by decide) (by decide) h4
          exact ⟨sixty_one_rand, s.1, t.1, u.1, v.1, s.2, t.2, u.2, v.2,
            h1, hb, h2, h3, hu, h4, hv, hw, hr4⟩

end TicTacToe
